import Mathlib

/-!
Shallow embedding of the `asset-emissions` data-cleaning pipeline
(`src/newco_data/NewCo Urban Dataset - Cleaning File.ipynb`).

The notebook is a linear pandas pipeline:
* `rename_hvars` strips the `h` prefix from hour columns via a
  `try: hstring, hour = vname.split('h'); return int(hour) except: return vname`;
* `create_date h = datetime(2015,1,1) + timedelta(hours=h-1)`;
* the wide table is melted to long format (one row per (block, sector, hour));
* `Day`/`Week`/`Month`/`Year` keys are derived from the hourly timestamp
  (`Week` via `to_period('W').start_time`, the Monday 00:00 of the week,
  since pandas weekly periods default to `W-SUN`, Monday through Sunday);
* groupby-sums (pandas `sum()` skips NaN) produce the aggregated tables;
* a shapefile is left-merged onto each table by integer block identifier
  after `GEOID10.apply(int)`.

Timestamps are embedded as integers: hours since 2015-01-01T00:00.
Emission values are `Option Rat` (`none` models NaN/null), identifiers are
`Int`, geometry is an opaque token (`String`).
-/

namespace AssetEmissions

/-! ### Calendar arithmetic (proleptic Gregorian, days since 1970-01-01)

These model the calendar of pandas/`datetime` timestamps.  `daysFromCivil`
and `civilFromDays` are the standard mutually inverse civil-calendar
conversions on the proleptic Gregorian calendar. -/

/-- Civil date (y, m, d) to days since 1970-01-01. -/
def daysFromCivil (y : Int) (m d : Nat) : Int :=
  let y' : Int := if m ≤ 2 then y - 1 else y
  let era : Int := y' / 400
  let yoe : Nat := (y' - era * 400).toNat
  let mp : Nat := if m > 2 then m - 3 else m + 9
  let doy : Nat := (153 * mp + 2) / 5 + d - 1
  let doe : Nat := yoe * 365 + yoe / 4 - yoe / 100 + doy
  era * 146097 + (doe : Int) - 719468

/-- Days since 1970-01-01 to civil date (y, m, d). -/
def civilFromDays (z : Int) : Int × Nat × Nat :=
  let zz : Int := z + 719468
  let era : Int := zz / 146097
  let doe : Nat := (zz - era * 146097).toNat
  let yoe : Nat := (doe - doe / 1460 + doe / 36524 - doe / 146096) / 365
  let y : Int := era * 400 + yoe
  let doy : Nat := doe - (365 * yoe + yoe / 4 - yoe / 100)
  let mp : Nat := (5 * doy + 2) / 153
  let d : Nat := doy - (153 * mp + 2) / 5 + 1
  let m : Nat := if mp < 10 then mp + 3 else mp - 9
  (if mp < 10 then y else y + 1, m, d)

/-- Days since 1970-01-01 of the pipeline's anchor date 2015-01-01. -/
def anchorDays : Int := daysFromCivil 2015 1 1

/-- A civil datetime (year, month, day, hour-of-day) as hours since the
2015-01-01T00:00 anchor, the embedding's timestamp representation. -/
def hoursOfDateTime (y : Int) (m d hh : Nat) : Int :=
  (daysFromCivil y m d - anchorDays) * 24 + hh

/-! ### Column normalizer (`rename_hvars`)

A pandas column label is either a string (as read from the CSV) or an
integer (after normalization).  Strings are embedded as `List Char`. -/

/-- A dataframe column label: a string, or an integer hour index. -/
inductive Label where
  | int (n : Int)
  | str (s : List Char)
deriving DecidableEq, Repr

/-- Python's `s.split('h')`: split a string at every occurrence of the
character `'h'` (separator dropped, empty parts kept). -/
def splitH : List Char → List (List Char)
  | [] => [[]]
  | c :: rest =>
    match splitH rest with
    | [] => [[]]
    | p :: ps => if c = 'h' then [] :: p :: ps else (c :: p) :: ps

/-- Nonempty and all ASCII digits. -/
def isDigits (l : List Char) : Bool := !l.isEmpty && l.all Char.isDigit

/-- Numeric value of a list of ASCII digit characters. -/
def digitsVal (l : List Char) : Int :=
  l.foldl (fun a c => 10 * a + ((c.toNat : Int) - 48)) 0

/-- Syntactic test for Python's `int(...)` accepting a string: an optional
single sign followed by at least one ASCII digit.  (Python additionally
tolerates surrounding whitespace and underscores between digits; the
identifiers and labels of this dataset are plain ASCII digit strings, so
the model restricts to the sign-and-digits core.) -/
def isNumeric (l : List Char) : Bool :=
  isDigits l ||
    (decide (l.head? = some '-') && isDigits l.tail) ||
    (decide (l.head? = some '+') && isDigits l.tail)

/-- Python's `int(s)` on a string: `some` value, or `none` for the
`ValueError` raise. -/
def pyInt (l : List Char) : Option Int :=
  if isDigits l then some (digitsVal l)
  else if l.head? = some '-' ∧ isDigits l.tail then some (-(digitsVal l.tail))
  else if l.head? = some '+' ∧ isDigits l.tail then some (digitsVal l.tail)
  else none

/-- The notebook's column renamer:

    def rename_hvars(vname):
        try:
            hstring, hour = vname.split('h')
            return int(hour)
        except:
            return vname

On an integer label, `.split` raises `AttributeError` and the label is
returned unchanged.  On a string, the tuple unpacking succeeds only when
the split has exactly two parts, and `int(hour)` succeeds only when the
second part is numeric; any failure falls back to the original label. -/
def rename_hvars (vname : Label) : Label :=
  match vname with
  | .int n => .int n
  | .str s =>
    match splitH s with
    | [_, hour] =>
      match pyInt hour with
      | some n => .int n
      | none => .str s
    | _ => .str s

/-! ### Timestamp deriver (`create_date`) and period keys -/

/-- `create_date(h) = datetime(2015,1,1) + timedelta(hours=h-1)`, embedded
as hours since the 2015-01-01T00:00 anchor.  Total: no bounds check. -/
def create_date (h : Int) : Int := h - 1

/-- `Hour.dt.to_period('D')`: the day (as days since the anchor)
containing a timestamp. -/
def dayOf (t : Int) : Int := t / 24

/-- `Hour.dt.to_period('W').apply(lambda r: r.start_time)`: pandas weekly
periods default to `W-SUN` (Monday through Sunday), so the key is the
Monday 00:00 opening the week containing the timestamp.  Day 0 of the
anchor (2015-01-01) is a Thursday, so the Monday 2014-12-29T00:00 sits at
hour −72 and the weeks are the 168-hour blocks anchored there. -/
def weekKeyOf (t : Int) : Int := t - (t + 72) % 168

/-- `Hour.dt.to_period('M')`: the (year, month) containing a timestamp. -/
def monthOf (t : Int) : Int × Nat :=
  let c := civilFromDays (dayOf t + anchorDays)
  (c.1, c.2.1)

/-- `Hour.dt.to_period('Y')`: the year containing a timestamp. -/
def yearOf (t : Int) : Int := (civilFromDays (dayOf t + anchorDays)).1

/-! ### Reshaper (`melt`) -/

/-- A row of the wide table: identifier columns `GEOID10`, `Sector`, and
one `Option Rat` value per hour column (`none` models NaN). -/
structure WideRow where
  geoid : Int
  sector : String
  vals : List (Option Rat)
deriving DecidableEq, Repr

/-- A row of the long table produced by

    long_df = t_df.melt(id_vars=['GEOID10','Sector'], var_name='Hour', value_name='tC')

one row per (block, sector, hour) cell. -/
structure LongRow where
  geoid : Int
  sector : String
  hour : Int
  tC : Option Rat
deriving DecidableEq, Repr

/-- The melt: every wide row is unpivoted against the list of hour-column
timestamps (the column headers after `create_date` renaming), positionally
aligned with its value list.  pandas emits the cells column-major; the
spec leaves the output order unspecified, and the embedding emits them
row-major. -/
def melt (hours : List Int) (rows : List WideRow) : List LongRow :=
  rows.flatMap fun r =>
    (hours.zip r.vals).map fun p => ⟨r.geoid, r.sector, p.1, p.2⟩

/-! ### Aggregator (groupby-sum, pandas `sum()` skipping NaN) -/

/-- pandas column `sum()`: nulls are skipped (an all-null group sums
to 0), never an error and never coerced to a number. -/
def sumSkipNulls (vs : List (Option Rat)) : Rat := (vs.filterMap id).sum

/-- The summed `tC` of one groupby bucket: the null-skipping sum of the
`tC` values of the rows whose derived key equals `k`. -/
def bucketSum {K : Type} [DecidableEq K] (key : LongRow → K)
    (rows : List LongRow) (k : K) : Rat :=
  sumSkipNulls ((rows.filter fun r => decide (key r = k)).map (·.tC))

/-- `groupby(key).sum().reset_index()`: one output row per distinct key
present in the input, carrying the bucket's null-skipping sum. -/
def aggregateBy {K : Type} [DecidableEq K] (key : LongRow → K)
    (rows : List LongRow) : List (K × Rat) :=
  ((rows.map key).dedup).map fun k => (k, bucketSum key rows k)

/-- The grouping key of the yearly aggregation
`long_df[['GEOID10','Sector','Year','tC']].groupby(['GEOID10','Sector','Year']).sum()`. -/
def yearKeyFn (r : LongRow) : Int × String × Int :=
  (r.geoid, r.sector, yearOf r.hour)

/-- The yearly aggregated table `long_df_year`. -/
def yearlyAgg (rows : List LongRow) : List ((Int × String × Int) × Rat) :=
  aggregateBy yearKeyFn rows

/-- Fetch the aggregated row of a given key (the first, and for the
`dedup`-built tables the only, entry with that key). -/
def lookupKey {K : Type} [DecidableEq K] (l : List (K × Rat)) (k : K) :
    Option Rat :=
  (l.find? fun p => decide (p.1 = k)).map (·.2)

/-! ### Geo-joiner -/

/-- A row of one of the five aggregated tables handed to the merge:
block identifier, sector, a period key of type `π` (timestamp, day, week,
month or year), and a `tC` value (possibly null in the hourly
passthrough table). -/
structure AggRow (π : Type) where
  geoid : Int
  sector : String
  period : π
  tC : Option Rat
deriving DecidableEq, Repr

/-- The columns of `shape_df[['GEOID10_int','NAME10','ALAND10','AWATER10','geometry']]`
taken into the merge; `geoidInt` is the integer-coerced identifier.
The geometry is opaque reference data, embedded as a token. -/
structure GeoAttrs where
  geoidInt : Int
  name : String
  aland : Int
  awater : Int
  geom : String
deriving DecidableEq, Repr

/-- A row of the merged frame: the aggregated row's columns plus the
polygon columns, which are all-null (`none`) for an unmatched left row. -/
structure MergedRow (π : Type) where
  geoid : Int
  sector : String
  period : π
  tC : Option Rat
  geo : Option GeoAttrs
deriving DecidableEq, Repr

/-- `shape_df.GEOID10.apply(int)`: coerce every polygon identifier string
to an integer; the first non-numeric identifier raises `ValueError`
(modelled by `none`), which halts the run uncaught. -/
def shapeCoerce : List (List Char) → Option (List Int)
  | [] => some []
  | s :: rest =>
    match pyInt s, shapeCoerce rest with
    | some v, some vs => some (v :: vs)
    | _, _ => none

/-- `left.merge(right, how='left', left_on='GEOID10', right_on='GEOID10_int')`:
every left row is emitted once per matching right row (matches in right
order), or once with null polygon columns when nothing matches.  Left
order is preserved. -/
def leftMerge {π : Type} (left : List (AggRow π)) (right : List GeoAttrs) :
    List (MergedRow π) :=
  left.flatMap fun l =>
    if (right.filter fun r => decide (r.geoidInt = l.geoid)) = []
    then [⟨l.geoid, l.sector, l.period, l.tC, none⟩]
    else (right.filter fun r => decide (r.geoidInt = l.geoid)).map
      fun r => ⟨l.geoid, l.sector, l.period, l.tC, some r⟩

/-- A row of the cleaned geo-joined output: the column selection
`['GEOID10','Sector','Urban Area','Land Area','Water Area','geometry',period_id,'tC']`
after the `NAME10`/`ALAND10`/`AWATER10` renames, in that order. -/
structure GeoOutRow (π : Type) where
  geoid : Int
  sector : String
  urbanArea : Option String
  landArea : Option Int
  waterArea : Option Int
  geom : Option String
  period : π
  tC : Option Rat
deriving DecidableEq, Repr

/-- `quick_df_cleanup(df, period_id)`: rename the polygon columns and
select the fixed output columns (dropping `GEOID10_int`); the notebook
defines this function identically in both merge implementations. -/
def quick_df_cleanup {π : Type} (df : List (MergedRow π)) : List (GeoOutRow π) :=
  df.map fun r =>
    ⟨r.geoid, r.sector, r.geo.map (·.name), r.geo.map (·.aland),
     r.geo.map (·.awater), r.geo.map (·.geom), r.period, r.tC⟩

/-- The five period granularities of the pipeline. -/
inductive Period where
  | hour | day | week | month | year
deriving DecidableEq, Repr

/-- `period_list = ['Year','Month','Week','Day','Hour']` of the
reduced-memory loop. -/
def period_list : List Period := [.year, .month, .week, .day, .hour]

/-- First geo-join implementation: five separate merge-then-cleanup
passes (`hour_df`, …, `year_df` then `hour_geo`, …, `year_geo`),
tabulated by period.  All five period keys share the representation
type `π`. -/
def firstPassJoin {π : Type} (shape : List GeoAttrs)
    (tH tD tW tM tY : List (AggRow π)) : List (Period × List (GeoOutRow π)) :=
  let hour_df := leftMerge tH shape
  let day_df := leftMerge tD shape
  let week_df := leftMerge tW shape
  let month_df := leftMerge tM shape
  let year_df := leftMerge tY shape
  [(.hour, quick_df_cleanup hour_df), (.day, quick_df_cleanup day_df),
   (.week, quick_df_cleanup week_df), (.month, quick_df_cleanup month_df),
   (.year, quick_df_cleanup year_df)]

/-- Second, reduced-memory geo-join implementation: one loop over
`period_list`, each iteration re-reading the period's aggregated table,
merging and cleaning it. -/
def reducedMemoryJoin {π : Type} (shape : List GeoAttrs)
    (tH tD tW tM tY : List (AggRow π)) : List (Period × List (GeoOutRow π)) :=
  period_list.map fun p =>
    let long_df :=
      match p with
      | .hour => tH | .day => tD | .week => tW | .month => tM | .year => tY
    let t_df := leftMerge long_df shape
    (p, quick_df_cleanup t_df)

/-- The table a join implementation produced for a given period. -/
def tableFor {π : Type} (l : List (Period × List (GeoOutRow π)))
    (p : Period) : Option (List (GeoOutRow π)) :=
  (l.find? fun q => decide (q.1 = p)).map (·.2)

/-! ### Helper lemmas -/

theorem digit_ne_h {c : Char} (h : c.isDigit = true) : c ≠ 'h' := by
  intro hc
  subst hc
  exact absurd h (by decide)

theorem splitH_no_h {l : List Char} (h : 'h' ∉ l) : splitH l = [l] := by
  induction l with
  | nil => rfl
  | cons c rest ih =>
    have hc : ¬c = 'h' := fun hc => h (hc ▸ List.mem_cons_self c rest)
    have hr : 'h' ∉ rest := fun hm => h (List.mem_cons_of_mem c hm)
    simp [splitH, ih hr, hc]

theorem isDigits_no_h {l : List Char} (h : isDigits l = true) : 'h' ∉ l := by
  intro hm
  have hall : l.all Char.isDigit = true := by
    unfold isDigits at h
    exact ((Bool.and_eq_true _ _).mp h).2
  exact digit_ne_h (List.all_eq_true.mp hall 'h' hm) rfl

theorem pyInt_digits {l : List Char} (h : isDigits l = true) :
    pyInt l = some (digitsVal l) := by
  unfold pyInt
  rw [if_pos h]

theorem digitsVal_cons_zero (s : List Char) :
    digitsVal ('0' :: s) = digitsVal s := by
  unfold digitsVal
  rw [List.foldl_cons]
  have h : ('0'.toNat : Int) = 48 := rfl
  rw [h]
  norm_num

theorem isDigits_cons_zero {s : List Char} (h : isDigits s = true) :
    isDigits ('0' :: s) = true := by
  unfold isDigits at h ⊢
  have hall := ((Bool.and_eq_true _ _).mp h).2
  simp [List.all_cons, hall]

theorem pyInt_eq_none_iff (l : List Char) :
    pyInt l = none ↔ isNumeric l = false := by
  unfold pyInt isNumeric
  split_ifs with h1 h2 h3 <;> simp_all

/-- Looking a member key up in a table that tabulates a function over a
list of keys yields the function's value at that key. -/
theorem lookupKey_map_of_mem {K : Type} [DecidableEq K] (f : K → Rat)
    (k : K) (keys : List K) (hk : k ∈ keys) :
    lookupKey (keys.map fun x => (x, f x)) k = some (f k) := by
  induction keys with
  | nil => cases hk
  | cons a t ih =>
    by_cases h : a = k
    · subst h
      simp [lookupKey, List.find?]
    · rcases List.mem_cons.mp hk with h' | h'
      · exact absurd h'.symm h
      · simpa [lookupKey, List.find?, h] using ih h'

/-- With pairwise-distinct keys on the right, filtering the right table by
a key yields exactly the `find?` result. -/
theorem filter_key_of_nodup (right : List GeoAttrs) (g : Int)
    (hnd : (right.map (·.geoidInt)).Nodup) :
    (right.filter fun r => decide (r.geoidInt = g)) =
      (right.find? fun r => decide (r.geoidInt = g)).toList := by
  induction right with
  | nil => rfl
  | cons r rest ih =>
    simp only [List.map_cons, List.nodup_cons] at hnd
    obtain ⟨hhead, htail⟩ := hnd
    by_cases h : r.geoidInt = g
    · have hnil : rest.filter (fun x => decide (x.geoidInt = g)) = [] := by
        refine List.filter_eq_nil_iff.mpr fun x hx => ?_
        simp only [decide_eq_true_eq]
        intro hxg
        exact hhead (List.mem_map.mpr ⟨x, hx, by rw [hxg, h]⟩)
      simp [List.filter_cons, List.find?, h, hnil]
    · simpa [List.filter_cons, List.find?, h] using ih htail

/-! ### Claim theorems -/

/-- C7: the column normalizer is idempotent on its own output — an
already-normalized integer hour label is returned unchanged (the
`.split` attribute error falls into the `except` branch), and more
generally applying `rename_hvars` twice equals applying it once. -/
theorem rename_hvars_idempotent :
    (∀ n : Int, rename_hvars (.int n) = .int n) ∧
    (∀ v : Label, rename_hvars (rename_hvars v) = rename_hvars v) := by
  constructor
  · intro n; rfl
  · intro v
    cases v with
    | int n => rfl
    | str s =>
      rcases hs : splitH s with _ | ⟨a, t⟩
      · simp [rename_hvars, hs]
      · rcases t with _ | ⟨b, t2⟩
        · simp [rename_hvars, hs]
        · rcases t2 with _ | ⟨c, t3⟩
          · rcases hp : pyInt b with _ | n
            · simp [rename_hvars, hs, hp]
            · simp [rename_hvars, hs, hp]
          · simp [rename_hvars, hs]

/-- C4: `create_date` maps hour-of-year 1 to 2015-01-01T00:00 and hour
8760 to 2015-12-31T23:00, equals the anchor plus `(h − 1)` hours for
every integer `h`, and performs no bounds check: hour 0 yields
2014-12-31T23:00 and hour 8761 yields 2016-01-01T00:00 rather than an
error. -/
theorem create_date_spec :
    create_date 1 = hoursOfDateTime 2015 1 1 0 ∧
    create_date 8760 = hoursOfDateTime 2015 12 31 23 ∧
    (∀ h : Int, create_date h = hoursOfDateTime 2015 1 1 0 + (h - 1)) ∧
    create_date 0 = hoursOfDateTime 2014 12 31 23 ∧
    create_date 8761 = hoursOfDateTime 2016 1 1 0 := by
  refine ⟨by decide, by decide, fun h => ?_, by decide, by decide⟩
  have h0 : hoursOfDateTime 2015 1 1 0 = 0 := by decide
  rw [h0, create_date]
  omega

/-- C8: the weekly bucket key of a timestamp is the start of the ISO week
containing it — a Monday (day-of-week 0, with 2015-01-01 = day 0 being a
Thursday) at midnight, at most the timestamp, less than 168 hours before
it — and two timestamps share a weekly key exactly when they lie in the
same 168-hour ISO week. -/
theorem week_key_is_iso_week_start :
    ∀ t : Int,
      (weekKeyOf t % 24 = 0 ∧ (weekKeyOf t / 24 + 3) % 7 = 0) ∧
      weekKeyOf t ≤ t ∧ t < weekKeyOf t + 168 ∧
      (∀ u : Int, weekKeyOf u = weekKeyOf t ↔
        (weekKeyOf t ≤ u ∧ u < weekKeyOf t + 168)) := by
  intro t
  unfold weekKeyOf
  refine ⟨⟨by omega, by omega⟩, by omega, by omega, fun u => by omega⟩

/-- C1: melting a wide table whose rows each carry one value per hour
column produces exactly (number of wide rows) × (number of hour columns)
long rows — one per original (block, sector, hour) cell. -/
theorem melt_row_count (hours : List Int) (rows : List WideRow)
    (hlen : ∀ r ∈ rows, r.vals.length = hours.length) :
    (melt hours rows).length = rows.length * hours.length := by
  induction rows with
  | nil => simp [melt]
  | cons r rest ih =>
    have hr := hlen r (List.mem_cons_self r rest)
    have hrest : ∀ x ∈ rest, x.vals.length = hours.length :=
      fun x hx => hlen x (List.mem_cons_of_mem r hx)
    simp only [melt, List.flatMap_cons, List.length_append, List.length_map,
      List.length_zip, hr, min_self, List.length_cons]
    have := ih hrest
    simp only [melt] at this
    rw [this]
    ring

/-- C1 witness: a 1-row, 2-hour-column wide table melts to 1 × 2 long
rows. -/
theorem melt_row_count_witness :
    (melt [0, 1] [⟨1, "Residential", [some 1, none]⟩]).length = 1 * 2 :=
  melt_row_count [0, 1] [⟨1, "Residential", [some 1, none]⟩] (by decide)

/-- C2: on a long table with no null emission values whose timestamps all
lie in one year `y` (as the reshaper's 2015 hours 1–8760 do), the yearly
groupby-sum row of any (block, sector) pair present equals the sum of the
`tC` values over all of the pair's long rows. -/
theorem yearly_roundtrip (rows : List LongRow) (y : Int)
    (hy : ∀ r ∈ rows, yearOf r.hour = y)
    (_hnn : ∀ r ∈ rows, r.tC ≠ none)
    (g : Int) (s : String)
    (hp : ∃ r ∈ rows, r.geoid = g ∧ r.sector = s) :
    lookupKey (yearlyAgg rows) (g, s, y) =
      some (sumSkipNulls
        ((rows.filter fun r => decide (r.geoid = g ∧ r.sector = s)).map (·.tC))) := by
  obtain ⟨r0, hr0, hg0, hs0⟩ := hp
  have hkmem : (g, s, y) ∈ (rows.map yearKeyFn).dedup := by
    rw [List.mem_dedup]
    exact List.mem_map.mpr ⟨r0, hr0, by simp [yearKeyFn, hg0, hs0, hy r0 hr0]⟩
  have h1 : lookupKey (yearlyAgg rows) (g, s, y) =
      some (bucketSum yearKeyFn rows (g, s, y)) :=
    lookupKey_map_of_mem (bucketSum yearKeyFn rows) (g, s, y) _ hkmem
  rw [h1]
  congr 1
  unfold bucketSum
  congr 1
  congr 1
  refine List.filter_congr fun r hr => ?_
  have hyr := hy r hr
  simp only [decide_eq_decide, yearKeyFn, Prod.mk.injEq]
  constructor
  · rintro ⟨h1, h2, h3⟩; exact ⟨h1, h2⟩
  · rintro ⟨h1, h2⟩; exact ⟨h1, h2, hyr⟩

/-- C2 witness: two 2015 long rows of one (block, sector) pair sum to the
pair's single yearly row. -/
theorem yearly_roundtrip_witness :
    lookupKey (yearlyAgg [⟨1, "Residential", 0, some 2⟩,
        ⟨1, "Residential", 5, some 3⟩]) (1, "Residential", 2015) =
      some (sumSkipNulls
        (([⟨1, "Residential", 0, some 2⟩, (⟨1, "Residential", 5, some 3⟩ : LongRow)].filter
            fun r => decide (r.geoid = 1 ∧ r.sector = "Residential")).map (·.tC))) :=
  yearly_roundtrip _ 2015 (by decide) (by decide) 1 "Residential"
    ⟨⟨1, "Residential", 0, some 2⟩, by decide⟩

/-- C3 counterexample: the non-hour label `"x2h3"` does not match the
`h<digits>` pattern (it does not even start with `h`), yet `rename_hvars`
does not return it unchanged — it mis-parses it to the integer 3. -/
theorem rename_hvars_counterexample :
    (['x', '2', 'h', '3'].head? ≠ some 'h') ∧
    rename_hvars (.str ['x', '2', 'h', '3']) = .int 3 ∧
    rename_hvars (.str ['x', '2', 'h', '3']) ≠ .str ['x', '2', 'h', '3'] := by
  refine ⟨by decide, ?_, ?_⟩ <;> decide

/-- C3 amended: a label of the form `h<digits>` is mapped to the integer
value of the digits; any other label that splits around `h` into exactly
two parts whose second parses as a Python integer is mis-parsed to that
integer (the fragility flagged in the source); every remaining label is
returned unchanged, and no error is ever raised (the function is total). -/
theorem rename_hvars_amended :
    (∀ s : List Char, isDigits s = true →
        rename_hvars (.str ('h' :: s)) = .int (digitsVal s)) ∧
    (∀ s a b : List Char, ∀ n : Int, splitH s = [a, b] → pyInt b = some n →
        rename_hvars (.str s) = .int n) ∧
    (∀ s : List Char, (∀ a b, splitH s = [a, b] → pyInt b = none) →
        rename_hvars (.str s) = .str s) := by
  have hpos : ∀ s a b : List Char, ∀ n : Int, splitH s = [a, b] →
      pyInt b = some n → rename_hvars (.str s) = .int n := by
    intro s a b n hs hp
    simp [rename_hvars, hs, hp]
  refine ⟨?_, hpos, ?_⟩
  · intro s hdig
    have hsplit : splitH ('h' :: s) = [[], s] := by
      have : splitH s = [s] := splitH_no_h (isDigits_no_h hdig)
      simp [splitH, this]
    exact hpos ('h' :: s) [] s (digitsVal s) hsplit (pyInt_digits hdig)
  · intro s hnone
    rcases hs : splitH s with _ | ⟨a, t⟩
    · simp [rename_hvars, hs]
    · rcases t with _ | ⟨b, t2⟩
      · simp [rename_hvars, hs]
      · rcases t2 with _ | ⟨c, t3⟩
        · simp [rename_hvars, hs, hnone a b hs]
        · simp [rename_hvars, hs]

/-- C3 witness: the hour label `h42` is normalized to the integer 42. -/
theorem rename_hvars_amended_witness :
    rename_hvars (.str ['h', '4', '2']) = .int 42 :=
  (rename_hvars_amended.1 ['4', '2'] (by decide)).trans (by decide)

/-- C5 counterexample: with a polygon table holding two rows with the
same identifier 7, the single aggregated row with block identifier 7 does
not appear exactly once in the geo-joined output — the left merge emits
it twice, so the claim fails as stated for arbitrary polygon tables. -/
theorem left_join_counterexample :
    ([(⟨7, "Residential", 0, some 1⟩ : AggRow Int)].length = 1) ∧
    (leftMerge [(⟨7, "Residential", 0, some 1⟩ : AggRow Int)]
      [⟨7, "A", 1, 2, "g1"⟩, ⟨7, "B", 3, 4, "g2"⟩]).length = 2 :=
  ⟨rfl, rfl⟩

/-- C5 amended: when the polygon table's identifiers are pairwise
distinct (as census urban-area identifiers are), the left join maps each
aggregated row to exactly one output row — in order, carrying the first
(unique) matching polygon's attributes — and the geographic fields are
null exactly when the row's block identifier has no match in the polygon
table. -/
theorem left_join_amended {π : Type} (left : List (AggRow π))
    (right : List GeoAttrs) (hnd : (right.map (·.geoidInt)).Nodup) :
    leftMerge left right = (left.map fun l =>
      ⟨l.geoid, l.sector, l.period, l.tC,
        right.find? fun r => decide (r.geoidInt = l.geoid)⟩) ∧
    ∀ l : AggRow π,
      ((right.find? fun r => decide (r.geoidInt = l.geoid)) = none ↔
        l.geoid ∉ right.map (·.geoidInt)) := by
  constructor
  · induction left with
    | nil => rfl
    | cons l rest ih =>
      simp only [leftMerge, List.flatMap_cons] at ih ⊢
      rw [List.map_cons, ih]
      have hfilter := filter_key_of_nodup right l.geoid hnd
      rcases hf : right.find? fun r => decide (r.geoidInt = l.geoid) with _ | r <;>
        rw [hf] at hfilter <;> rw [hf, hfilter]
      · simp
      · simp
  · intro l
    rw [List.find?_eq_none]
    simp

/-- C5 witness: a matched and an unmatched aggregated row each appear
exactly once, the latter with null geography. -/
theorem left_join_amended_witness :
    leftMerge [(⟨7, "Residential", 0, some 1⟩ : AggRow Int), ⟨8, "Onroad", 0, some 2⟩]
        [⟨7, "A", 1, 2, "g1"⟩] =
      ([(⟨7, "Residential", 0, some 1⟩ : AggRow Int), ⟨8, "Onroad", 0, some 2⟩].map
        fun l => ⟨l.geoid, l.sector, l.period, l.tC,
          [(⟨7, "A", 1, 2, "g1"⟩ : GeoAttrs)].find? fun r => decide (r.geoidInt = l.geoid)⟩) :=
  (left_join_amended _ _ (by decide)).1

/-- C6: in any groupby-sum of the aggregator, a long row with a missing
emission value contributes nothing to its period bucket's sum — removing
it leaves every bucket sum unchanged — and concretely the bucket values
`[5, null, 3]` sum to 8 (no error, and not null-as-zero in any sense that
would differ from skipping). -/
theorem null_cells_vanish_in_sums :
    (∀ {K : Type} [DecidableEq K] (key : LongRow → K)
      (pre post : List LongRow) (r : LongRow), r.tC = none →
      ∀ k : K, bucketSum key (pre ++ r :: post) k = bucketSum key (pre ++ post) k) ∧
    sumSkipNulls [some 5, none, some 3] = 8 := by
  constructor
  · intro K inst key pre post r hr k
    by_cases hk : key r = k
    · simp [bucketSum, sumSkipNulls, List.filter_append, List.filter_cons, hk, hr]
    · simp [bucketSum, List.filter_append, List.filter_cons, hk]
  · simp [sumSkipNulls, List.filterMap]
    norm_num

/-- C6 witness: dropping a null-valued row from a concrete two-row bucket
leaves the bucket sum unchanged. -/
theorem null_cells_vanish_in_sums_witness :
    bucketSum (fun r => r.geoid) [⟨1, "Residential", 0, some 5⟩,
        ⟨1, "Residential", 1, none⟩] 1 =
      bucketSum (fun r => r.geoid) [⟨1, "Residential", 0, some 5⟩] 1 :=
  null_cells_vanish_in_sums.1 (fun r => r.geoid)
    [⟨1, "Residential", 0, some 5⟩] [] ⟨1, "Residential", 1, none⟩ rfl 1

/-- C9: coercing the polygon identifiers fails (the uncaught `ValueError`
that halts the run, modelled by `none`) precisely when some identifier is
non-numeric; when all are numeric it succeeds; and a leading zero never
changes the parsed value — the coercion strips leading zeros. -/
theorem shape_coerce_spec :
    (∀ ids : List (List Char),
      (shapeCoerce ids = none ↔ ∃ s ∈ ids, isNumeric s = false)) ∧
    (∀ ids : List (List Char), (∀ s ∈ ids, isNumeric s = true) →
      ∃ out, shapeCoerce ids = some out) ∧
    (∀ s : List Char, isDigits s = true →
      pyInt ('0' :: s) = pyInt s ∧ pyInt ('0' :: s) = some (digitsVal s)) := by
  have hmain : ∀ ids : List (List Char),
      (shapeCoerce ids = none ↔ ∃ s ∈ ids, isNumeric s = false) := by
    intro ids
    induction ids with
    | nil => simp [shapeCoerce]
    | cons s rest ih =>
      rcases hp : pyInt s with _ | v
      · have hs : isNumeric s = false := (pyInt_eq_none_iff s).mp hp
        refine iff_of_true ?_ ⟨s, List.mem_cons_self s rest, hs⟩
        simp only [shapeCoerce]
        rw [hp]
      · have hs : isNumeric s ≠ false := by
          intro hf
          have hnone := (pyInt_eq_none_iff s).mpr hf
          rw [hp] at hnone
          cases hnone
        rcases hr : shapeCoerce rest with _ | vs
        · refine iff_of_true ?_ ?_
          · simp only [shapeCoerce]
            rw [hp, hr]
          · obtain ⟨x, hx, hxf⟩ := ih.mp hr
            exact ⟨x, List.mem_cons_of_mem s hx, hxf⟩
        · refine iff_of_false ?_ ?_
          · simp only [shapeCoerce]
            rw [hp, hr]
            exact fun h => by cases h
          · rintro ⟨x, hx, hxf⟩
            rcases List.mem_cons.mp hx with rfl | hx'
            · exact hs hxf
            · have := ih.mpr ⟨x, hx', hxf⟩
              rw [hr] at this
              cases this
  refine ⟨hmain, ?_, ?_⟩
  · intro ids hall
    rcases h : shapeCoerce ids with _ | out
    · exfalso
      obtain ⟨x, hx, hxf⟩ := (hmain ids).mp h
      rw [hall x hx] at hxf
      cases hxf
    · exact ⟨out, rfl⟩
  · intro s hdig
    have h1 : isDigits ('0' :: s) = true := isDigits_cons_zero hdig
    rw [pyInt_digits h1, pyInt_digits hdig, digitsVal_cons_zero]
    exact ⟨rfl, rfl⟩

/-- C9 witness: the all-numeric identifier list `["007", "42"]` coerces
successfully, and `"007"` parses to the same value as `"07"`. -/
theorem shape_coerce_spec_witness :
    (∃ out, shapeCoerce [['0', '0', '7'], ['4', '2']] = some out) ∧
    pyInt ['0', '0', '7'] = pyInt ['0', '7'] :=
  ⟨shape_coerce_spec.2.1 [['0', '0', '7'], ['4', '2']] (by decide),
   (shape_coerce_spec.2.2 ['0', '7'] (by decide)).1⟩

/-- C10: for every shapefile table and every five aggregated tables, the
five-pass geo-join and the reduced-memory loop produce, for each period
granularity, the same table — the same rows (same fixed column selection,
the `GeoOutRow` fields in order) in the same order. -/
theorem geo_join_implementations_agree {π : Type} (shape : List GeoAttrs)
    (tH tD tW tM tY : List (AggRow π)) (p : Period) :
    tableFor (reducedMemoryJoin shape tH tD tW tM tY) p =
      tableFor (firstPassJoin shape tH tD tW tM tY) p := by
  cases p <;> rfl

end AssetEmissions
